import Mathlib

/-!
Shallow embedding of the core logic of the scratch-card repository:
the Local Cache (`storageService`), the Record Store Client
(`sheetService`) and the Scratch-Reveal Detector (the `ScratchCard`
component), together with theorems about them.

`localStorage` is factored out: each function takes the decoded
contents of its storage key as an argument and returns the updated
value, and the ambient calls `getTodayString()` / `Date.now()` become
explicit `today` / `now` parameters.
-/

namespace ScratchCardModel

/-- Model of the JS builtin `String.prototype.toLowerCase`, restricted
to the ASCII range (`Char.toLower` lowers exactly the letters A–Z),
which covers the usernames this system compares. -/
def jsToLower (s : String) : String := ⟨s.data.map Char.toLower⟩

/-- Model of the JS builtin `String.prototype.trim`: drop whitespace
from both ends. -/
def jsTrim (s : String) : String :=
  ⟨((s.data.dropWhile Char.isWhitespace).reverse.dropWhile Char.isWhitespace).reverse⟩

/-- Mirrors the `UserRecord` interface of `types.ts`.  The optional
`ip` field is modelled as `Option String`; JS numbers that hold
integral values (`prize`, `timestamp`) are modelled as `Int`. -/
structure UserRecord where
  username : String
  agent : String
  prize : Int
  date : String
  timestamp : Int
  isScratched : Bool
  isClaimed : Bool
  ip : Option String
deriving DecidableEq, Repr

/-- The `EIGHT_HOURS_MS` constant of `storageService`. -/
def EIGHT_HOURS_MS : Int := 8 * 60 * 60 * 1000

/-- Embeds `saveRecord` of `storageService`: the filter keeps exactly
the records that do NOT match the case-insensitive username of the
written record together with its date, then the record is appended. -/
def saveRecord (data : List UserRecord) (record : UserRecord) : List UserRecord :=
  (data.filter fun r =>
    !(jsToLower r.username == jsToLower record.username && r.date == record.date))
    ++ [record]

/-- Embeds `getRecord` of `storageService`: first a lookup of a record
dated today (case-insensitive username), then a fallback lookup by
username alone guarded by the 8-hour expiry and a daily-reset check. -/
def getRecord (data : List UserRecord) (username : String) (today : String)
    (now : Int) : Option UserRecord :=
  match data.find? fun r => jsToLower r.username == jsToLower username && r.date == today with
  | some todayRecord => some todayRecord
  | none =>
    match data.find? fun r => jsToLower r.username == jsToLower username with
    | none => none
    | some anyRecord =>
      if now - anyRecord.timestamp > EIGHT_HOURS_MS then
        none
      else if anyRecord.date != today then
        none
      else
        some anyRecord

/-- Helper: `getRecord` coincides with its first (today-dated) lookup;
the 8-hour fallback branch can never produce a record, because any
record it finds must have failed the first lookup and hence has a
non-today date, which the daily-reset check then rejects. -/
theorem getRecord_eq_find (data : List UserRecord) (username today : String) (now : Int) :
    getRecord data username today now
      = data.find? fun r => jsToLower r.username == jsToLower username && r.date == today := by
  unfold getRecord
  cases h1 : data.find? fun r => jsToLower r.username == jsToLower username && r.date == today with
  | some r => rfl
  | none =>
    cases h2 : data.find? fun r => jsToLower r.username == jsToLower username with
    | none => rfl
    | some r =>
      have hmem : r ∈ data := List.mem_of_find?_eq_some h2
      have hr := List.find?_some h2
      have hall := List.find?_eq_none.mp h1 r hmem
      have hdate : ¬(r.date = today) := by
        intro hd
        exact absurd (by simp [hr, hd]) hall
      by_cases hexp : EIGHT_HOURS_MS < now - r.timestamp
      · simp [hexp]
      · simp [hexp, hdate]

/-- A cached record dated today whose timestamp is 9 hours old. -/
def staleTodayRec : UserRecord :=
  { username := "alice", agent := "a7", prize := 58, date := "2026-01-29",
    timestamp := 0, isScratched := false, isClaimed := false, ip := none }

/-- C1 counterexample: a locally cached record whose `date` equals today
but whose `timestamp` is 9 hours (32400000 ms) in the past is still
returned by `getRecord` — the priority today-lookup never consults the
timestamp, so the entry is NOT treated as stale. -/
theorem getRecord_returns_stale_today_record :
    getRecord [staleTodayRec] "alice" "2026-01-29" 32400000 = some staleTodayRec ∧
    32400000 - staleTodayRec.timestamp > EIGHT_HOURS_MS ∧
    staleTodayRec.date = "2026-01-29" := by
  refine ⟨by decide, by decide, rfl⟩

/-- C1 (amended): `getRecord` honors a cached record precisely when its
lowercased username matches and its `date` equals today — it returns
the first such record of the cache.  The 8-hour expiry rule never
affects the outcome: the result is independent of `now`, and a
today-dated record is returned no matter how old its timestamp is. -/
theorem getRecord_today_only_expiry_unreachable (data : List UserRecord)
    (username today : String) (now now' : Int) :
    getRecord data username today now
      = (data.find? fun r => jsToLower r.username == jsToLower username && r.date == today) ∧
    getRecord data username today now = getRecord data username today now' := by
  refine ⟨getRecord_eq_find data username today now, ?_⟩
  rw [getRecord_eq_find, getRecord_eq_find]

/-- C7: `getRecord` never returns a record whose date differs from
today, regardless of its timestamp. -/
theorem getRecord_never_previous_day (data : List UserRecord) (username today : String)
    (now : Int) (r : UserRecord) (h : getRecord data username today now = some r) :
    r.date = today := by
  rw [getRecord_eq_find] at h
  have hp := List.find?_some h
  simp only [Bool.and_eq_true, beq_iff_eq] at hp
  exact hp.2

/-- Witness for `getRecord_never_previous_day` at a concrete cache. -/
theorem getRecord_never_previous_day_witness : staleTodayRec.date = "2026-01-29" :=
  getRecord_never_previous_day [staleTodayRec] "alice" "2026-01-29" 0 staleTodayRec (by decide)

/-- A cached record stored under the exact username "alice". -/
def aliceRec : UserRecord :=
  { username := "alice", agent := "a7", prize := 38, date := "2026-01-29",
    timestamp := 0, isScratched := false, isClaimed := false, ip := none }

/-- C4 counterexample: usernames are NOT trimmed before comparison:
" alice" and "alice" have equal trimmed lowercased forms, yet on the
same cache and date `getRecord` finds the record for "alice" and finds
nothing for " alice" — they are treated as different identities. -/
theorem username_not_trimmed :
    jsTrim (jsToLower " alice") = jsTrim (jsToLower "alice") ∧
    getRecord [aliceRec] "alice" "2026-01-29" 0 = some aliceRec ∧
    getRecord [aliceRec] " alice" "2026-01-29" 0 = none := by
  refine ⟨by decide, by decide, by decide⟩

/-- C4 (amended): username identity is case-insensitive (but untrimmed):
for usernames with equal lowercasings, `getRecord` resolves to the same
record, and after `saveRecord` of a record under one casing, any stored
record carrying the other casing with the same date is the record just
written. -/
theorem username_case_insensitive_identity (data : List UserRecord)
    (u₁ u₂ today : String) (now : Int) (r x : UserRecord)
    (h : jsToLower u₁ = jsToLower u₂) (hr : r.username = u₁)
    (hx : x ∈ saveRecord data r) (hxu : jsToLower x.username = jsToLower u₂)
    (hxd : x.date = r.date) :
    getRecord data u₁ today now = getRecord data u₂ today now ∧ x = r := by
  constructor
  · rw [getRecord_eq_find, getRecord_eq_find, h]
  · rcases List.mem_append.mp hx with hmem | hmem
    · have hp := (List.mem_filter.mp hmem).2
      have h2 : jsToLower x.username = jsToLower r.username := by rw [hxu, hr, h]
      simp [h2, hxd] at hp
    · simpa using hmem

/-- A cached record stored under the capitalized username "Alice". -/
def aliceUpperRec : UserRecord :=
  { username := "Alice", agent := "a7", prize := 38, date := "2026-01-29",
    timestamp := 0, isScratched := false, isClaimed := false, ip := none }

/-- Witness for `username_case_insensitive_identity`: "Alice" saved,
then looked up as "alice". -/
theorem username_case_insensitive_identity_witness :
    getRecord [] "Alice" "2026-01-29" 0 = getRecord [] "alice" "2026-01-29" 0 ∧
    aliceUpperRec = aliceUpperRec := by
  refine username_case_insensitive_identity [] "Alice" "alice" "2026-01-29" 0
    aliceUpperRec aliceUpperRec (by decide) ?_ ?_ (by decide) rfl
  · decide
  · decide

/-- C5: `saveRecord` leaves exactly one stored record whose
case-insensitive username and date match the written record, namely the
written record itself (the filter removes every previous match before
the append). -/
theorem saveRecord_at_most_one_per_identity (data : List UserRecord) (record : UserRecord) :
    (saveRecord data record).filter
      (fun x => jsToLower x.username == jsToLower record.username && x.date == record.date)
      = [record] := by
  unfold saveRecord
  rw [List.filter_append, List.filter_filter]
  simp

/-- Values produced by a successful `JSON.parse`. -/
inductive Json where
  | null
  | bool (b : Bool)
  | num (q : ℚ)
  | str (s : String)
  | arr (items : List Json)
  | obj (fields : List (String × Json))
deriving Repr

/-- Whether a Json value is an array (`Array.isArray`). -/
def Json.isArr : Json → Bool
  | .arr _ => true
  | _ => false

/-- A raw `localStorage` cell abstracted by its `JSON.parse` outcome:
`absent` when `getItem` returned null or the empty string (both falsy),
`invalid` when the stored string makes `JSON.parse` throw, `value j`
when it parses to `j`. -/
inductive RawCell where
  | absent
  | invalid
  | value (j : Json)

/-- Numeric value of a run of decimal digit characters. -/
def decDigitsVal (cs : List Char) : ℕ :=
  cs.foldl (fun n c => 10 * n + (c.toNat - 48)) 0

/-- Exponent tail of a JS numeric literal: optional sign, then at least
one digit. -/
def parseExpTail (m : ℚ) (cs : List Char) : Option ℚ :=
  let signDigits : Bool × List Char :=
    match cs with
    | '-' :: rest => (true, rest)
    | '+' :: rest => (false, rest)
    | rest => (false, rest)
  if signDigits.2.isEmpty || !(signDigits.2.all Char.isDigit) then none
  else if signDigits.1 then some (m / 10 ^ decDigitsVal signDigits.2)
  else some (m * 10 ^ decDigitsVal signDigits.2)

/-- Optional exponent marker after the mantissa of a JS numeric
literal. -/
def parseAfterMantissa (m : ℚ) (cs : List Char) : Option ℚ :=
  match cs with
  | [] => some m
  | 'e' :: rest => parseExpTail m rest
  | 'E' :: rest => parseExpTail m rest
  | _ => none

/-- Unsigned decimal JS numeric literal: digits with optional fraction
and optional exponent; at least one mantissa digit is required. -/
def parseDecimal (cs : List Char) : Option ℚ :=
  let ip := cs.takeWhile Char.isDigit
  let rest := cs.dropWhile Char.isDigit
  match rest with
  | [] => if ip.isEmpty then none else some (decDigitsVal ip)
  | '.' :: rest2 =>
    let fp := rest2.takeWhile Char.isDigit
    let rest3 := rest2.dropWhile Char.isDigit
    if ip.isEmpty && fp.isEmpty then none
    else parseAfterMantissa ((decDigitsVal ip : ℚ) + (decDigitsVal fp : ℚ) / 10 ^ fp.length) rest3
  | _ => if ip.isEmpty then none else parseAfterMantissa (decDigitsVal ip) rest

/-- Model of the JS `Number(string)` coercion: surrounding whitespace
is trimmed, the empty string is 0, a signed decimal literal with
optional fraction/exponent gives its value, anything else is NaN
(`none`).  Hex/octal/binary literals and "Infinity" are not
modelled. -/
def jsStrToNum (s : String) : Option ℚ :=
  let t := jsTrim s
  if t.data.isEmpty then some 0
  else
    match t.data with
    | '-' :: rest => (parseDecimal rest).map (fun q => -q)
    | '+' :: rest => parseDecimal rest
    | cs => parseDecimal cs

/-- Model of the JS `Number(v)` coercion on parsed-JSON values, with
`none` standing for NaN: `null` is 0, booleans are 0/1, numbers are
themselves, strings follow the string grammar, `[]` is 0, a singleton
array converts like its single element (via its string form, whence a
singleton boolean is NaN), longer arrays and objects are NaN. -/
def jsNumber : Json → Option ℚ
  | .null => some 0
  | .bool b => some (if b then 1 else 0)
  | .num q => some q
  | .str s => jsStrToNum s
  | .arr [] => some 0
  | .arr [.bool _] => none
  | .arr [v] => jsNumber v
  | .arr (_ :: _ :: _) => none
  | .obj _ => none

/-- Embeds `loadAllRecords` of `storageService` at the JSON level: an
absent cell or one whose `JSON.parse` throws yields the empty array;
any successfully parsed value is returned as-is (the code casts it to
`UserRecord[]` without a runtime check). -/
def loadAllRecords : RawCell → Json
  | .absent => .arr []
  | .invalid => .arr []
  | .value j => j

/-- Embeds `getPrizeConfig` of `storageService`: absent, unparsable or
non-array cells give the default catalog; an array is mapped through
`Number` and the NaN entries are dropped. -/
def getPrizeConfig : RawCell → List ℚ
  | .absent => [38, 58, 88]
  | .invalid => [38, 58, 88]
  | .value (.arr items) => items.filterMap jsNumber
  | .value _ => [38, 58, 88]

/-- The `DEFAULT_SHEET_URL` constant of `storageService`. -/
def DEFAULT_SHEET_URL : String :=
  "https://script.google.com/macros/s/AKfycbza7xmY4eFHvdDIW9bNVw3grfrp0j89epTMdUwiDbj6CrQhxi0YTqGLhQ0A0u1oCVOZug/exec"

/-- JS truthiness of a property-read result (`none` = `undefined`). -/
def jsTruthy : Option Json → Bool
  | none => false
  | some .null => false
  | some (.bool b) => b
  | some (.num q) => !(q == 0)
  | some (.str s) => !(s == "")
  | some (.arr _) => true
  | some (.obj _) => true

/-- Property read on a parsed JSON object. -/
def objGet (fields : List (String × Json)) (key : String) : Option Json :=
  (fields.find? fun p => p.1 == key).map Prod.snd

/-- Property write on a parsed JSON object. -/
def objSet (fields : List (String × Json)) (key : String) (v : Json) :
    List (String × Json) :=
  if (fields.find? fun p => p.1 == key).isSome then
    fields.map fun p => if p.1 == key then (p.1, v) else p
  else
    fields ++ [(key, v)]

/-- Embeds `getAdminConfig` of `storageService`.  An absent cell gives
the built-in default config; an unparsable cell propagates the
unguarded `JSON.parse` exception (`Except.error`).  A parsed object
gets `adminSheetUrl` backfilled from `googleSheetUrl` (or the default)
when falsy; a parsed primitive or null also raises (reading or
assigning a property of null / a primitive throws in strict mode); a
parsed array is returned unchanged (the expando assignment is not
observable at the JSON level). -/
def getAdminConfig : RawCell → Except Unit Json
  | .absent => .ok (.obj [("googleSheetUrl", .str DEFAULT_SHEET_URL),
      ("adminSheetUrl", .str DEFAULT_SHEET_URL), ("isEnabled", .bool true)])
  | .invalid => .error ()
  | .value (.obj fields) =>
    if jsTruthy (objGet fields "adminSheetUrl") then .ok (.obj fields)
    else .ok (.obj (objSet fields "adminSheetUrl"
      (if jsTruthy (objGet fields "googleSheetUrl")
       then (objGet fields "googleSheetUrl").getD .null
       else .str DEFAULT_SHEET_URL)))
  | .value (.arr items) => .ok (.arr items)
  | .value _ => .error ()

/-- Mirrors the `AdminConfig` interface of `types.ts`. -/
structure AdminConfig where
  googleSheetUrl : String
  adminSheetUrl : String
  isEnabled : Bool
deriving DecidableEq, Repr

/-- Outcome of the HTTP GET performed by `fetchRecordsFromSheet`:
either the fetch rejects (network failure; a malformed sheet URL that
makes `new URL` throw is folded into this case, both being thrown from
inside the same `try`), or a response arrives with its ok-flag and a
body abstracted by its `response.json()` outcome (`none` when the body
is not valid JSON). -/
inductive FetchOutcome where
  | networkError
  | resp (ok : Bool) (body : Option Json)

/-- Embeds `fetchRecordsFromSheet` of `sheetService`; `config` stands
for the `getAdminConfig()` result at its interface type and `outcome`
for the behavior of the transport.  Sync disabled or a blank URL short-
circuits to an empty list before the `try`; inside it, a rejected
fetch, a non-ok response and an unparsable body all propagate as
errors, a parsed array is returned, and parsed non-array JSON gives an
empty list. -/
def fetchRecordsFromSheet (config : AdminConfig) (outcome : FetchOutcome) :
    Except Unit (List Json) :=
  if !config.isEnabled || config.googleSheetUrl == "" then .ok []
  else if jsTrim config.googleSheetUrl == "" then .ok []
  else
    match outcome with
    | .networkError => .error ()
    | .resp false _ => .error ()
    | .resp true none => .error ()
    | .resp true (some (.arr items)) => .ok items
    | .resp true (some _) => .ok []

/-- C6: reading persisted local state never raises: an absent or
unparsable records cell loads as the empty array, and an absent,
unparsable, or parsed-but-non-array prize-config cell yields the
default catalog [38, 58, 88]. -/
theorem local_state_reads_degrade (j : Json) (h : j.isArr = false) :
    loadAllRecords .absent = .arr [] ∧ loadAllRecords .invalid = .arr [] ∧
    getPrizeConfig .absent = [38, 58, 88] ∧ getPrizeConfig .invalid = [38, 58, 88] ∧
    getPrizeConfig (.value j) = [38, 58, 88] := by
  refine ⟨rfl, rfl, rfl, rfl, ?_⟩
  cases j <;> simp_all [getPrizeConfig, Json.isArr]

/-- Witness for `local_state_reads_degrade` at a parsed JSON object. -/
theorem local_state_reads_degrade_witness :
    loadAllRecords .absent = .arr [] ∧ loadAllRecords .invalid = .arr [] ∧
    getPrizeConfig .absent = [38, 58, 88] ∧ getPrizeConfig .invalid = [38, 58, 88] ∧
    getPrizeConfig (.value (.obj [])) = [38, 58, 88] :=
  local_state_reads_degrade (.obj []) rfl

/-- C9: with nothing stored under the admin-config key,
`getAdminConfig` returns the default configuration — sync enabled and
the built-in sheet URL — while a stored string that does not parse as
JSON makes it raise (its `JSON.parse` is unguarded), unlike the records
and prize-config readers, which degrade to their defaults. -/
theorem getAdminConfig_default_on_absent_raises_on_invalid :
    getAdminConfig .absent = .ok (.obj [("googleSheetUrl", .str DEFAULT_SHEET_URL),
      ("adminSheetUrl", .str DEFAULT_SHEET_URL), ("isEnabled", .bool true)]) ∧
    getAdminConfig .invalid = .error () ∧
    loadAllRecords .invalid = .arr [] ∧
    getPrizeConfig .invalid = [38, 58, 88] :=
  ⟨rfl, rfl, rfl, rfl⟩

/-- C10: a stored prize-config that parses as an array all of whose
entries convert to NaN yields the empty prize list, not the default
catalog. -/
theorem getPrizeConfig_all_nan_gives_empty (items : List Json)
    (h : ∀ v ∈ items, jsNumber v = none) :
    getPrizeConfig (.value (.arr items)) = [] ∧ ([] : List ℚ) ≠ [38, 58, 88] := by
  refine ⟨?_, by decide⟩
  simpa [getPrizeConfig, List.filterMap_eq_nil_iff] using h

/-- Witness for `getPrizeConfig_all_nan_gives_empty`: a catalog of an
object and a non-numeric string. -/
theorem getPrizeConfig_all_nan_gives_empty_witness :
    getPrizeConfig (.value (.arr [.obj [], .str "abc"])) = [] ∧
    ([] : List ℚ) ≠ [38, 58, 88] :=
  getPrizeConfig_all_nan_gives_empty [.obj [], .str "abc"] (by decide)

/-- C2: with remote sync enabled and a non-blank sheet URL, every
failed fetch — network error, non-ok HTTP response, or a body that is
not valid JSON — propagates out of `fetchRecordsFromSheet` as a thrown
error, never as an empty list. -/
theorem fetchRecordsFromSheet_propagates_failure (config : AdminConfig)
    (body : Option Json) (hen : config.isEnabled = true)
    (hurl : jsTrim config.googleSheetUrl ≠ "") :
    fetchRecordsFromSheet config .networkError = .error () ∧
    fetchRecordsFromSheet config (.resp false body) = .error () ∧
    fetchRecordsFromSheet config (.resp true none) = .error () := by
  have hne : config.googleSheetUrl ≠ "" := by
    intro h0
    exact hurl (by rw [h0]; rfl)
  refine ⟨?_, ?_, ?_⟩ <;> simp [fetchRecordsFromSheet, hen, hne, hurl]

/-- A config with sync enabled and a concrete sheet URL. -/
def enabledConfig : AdminConfig :=
  { googleSheetUrl := "https://sheet.test/exec",
    adminSheetUrl := "https://sheet.test/exec", isEnabled := true }

/-- Witness for `fetchRecordsFromSheet_propagates_failure` on the three
failure shapes. -/
theorem fetchRecordsFromSheet_propagates_failure_witness :
    fetchRecordsFromSheet enabledConfig .networkError = .error () ∧
    fetchRecordsFromSheet enabledConfig (.resp false none) = .error () ∧
    fetchRecordsFromSheet enabledConfig (.resp true none) = .error () :=
  fetchRecordsFromSheet_propagates_failure enabledConfig none rfl (by decide)

/-- State of the `ScratchCard` component over a `w × h` canvas:
`isScratching` mirrors the React gesture flag, `revealed` the reveal
flag, `uncovered` the set of canvas pixels whose alpha has been
cleared (drawn with `destination-out`, so transparent for the alpha <
128 test), and `revealCount` the number of `onReveal` invocations. -/
structure CardState (w h : ℕ) where
  isScratching : Bool
  revealed : Bool
  uncovered : Finset (Fin w × Fin h)
  revealCount : ℕ
deriving DecidableEq

variable {w h : ℕ}

/-- The radius-20 disk drawn by `ctx.arc(x, y, 20, 0, 2π)`, rasterized
as the pixels whose integer coordinates lie in the disk. -/
def disk (w h : ℕ) (x y : ℚ) : Finset (Fin w × Fin h) :=
  Finset.univ.filter fun p =>
    ((p.1.val : ℚ) - x) ^ 2 + ((p.2.val : ℚ) - y) ^ 2 ≤ 20 ^ 2

/-- Embeds `handleScratch`: a no-op once revealed, otherwise uncovers
the radius-20 disk around the pointer position. -/
def handleScratch (x y : ℚ) (s : CardState w h) : CardState w h :=
  if s.revealed then s
  else { s with uncovered := s.uncovered ∪ disk w h x y }

/-- Embeds `calculateRevealPercentage`: transparent pixels over total
pixels (`pixels.length / 4 = w * h`), times 100. -/
def calculateRevealPercentage (s : CardState w h) : ℚ :=
  ((s.uncovered.card : ℚ) / ((w * h : ℕ) : ℚ)) * 100

/-- Embeds `startScratching`. -/
def startScratching (s : CardState w h) : CardState w h :=
  { s with isScratching := true }

/-- Embeds `stopScratching`: the gesture ends (`isScratching := false`
on every path); if not yet revealed and the measured coverage exceeds
40, the card is marked revealed, the whole cover is cleared
(`clearRect`) and `onReveal` fires. -/
def stopScratching (s : CardState w h) : CardState w h :=
  if s.revealed then { s with isScratching := false }
  else if 40 < calculateRevealPercentage s then
    { s with
      isScratching := false
      revealed := true
      uncovered := Finset.univ
      revealCount := s.revealCount + 1 }
  else { s with isScratching := false }

/-- Pointer events feeding the component: press (`onMouseDown` /
`onTouchStart`), move (`onMouseMove` / `onTouchMove`, which forward to
`handleScratch` only while a gesture is active), and release
(`onMouseUp`, `onMouseLeave`, `onTouchEnd`, all wired to
`stopScratching`). -/
inductive ScratchEvent where
  | press
  | move (x y : ℚ)
  | release

/-- One pointer-event step of the component. -/
def step (e : ScratchEvent) (s : CardState w h) : CardState w h :=
  match e with
  | .press => startScratching s
  | .move x y => if s.isScratching then handleScratch x y s else s
  | .release => stopScratching s

/-- Execution of a pointer-event trace. -/
def run (evs : List ScratchEvent) (s : CardState w h) : CardState w h :=
  evs.foldl (fun t e => step e t) s

/-- Initial component state: for a card already revealed on a previous
visit (`isRevealedInitial`) the canvas is cleared immediately,
otherwise the opaque cover is drawn over the whole surface. -/
def initState (w h : ℕ) (isRevealedInitial : Bool) : CardState w h :=
  { isScratching := false, revealed := isRevealedInitial,
    uncovered := if isRevealedInitial then Finset.univ else ∅,
    revealCount := 0 }

/-- Helper invariant: one step preserves "unrevealed means no reveal
has fired yet, and at most one has fired ever". -/
theorem step_reveal_inv (e : ScratchEvent) (s : CardState w h)
    (h1 : s.revealed = false → s.revealCount = 0) (h2 : s.revealCount ≤ 1) :
    ((step e s).revealed = false → (step e s).revealCount = 0) ∧
      (step e s).revealCount ≤ 1 := by
  cases e with
  | press => exact ⟨h1, h2⟩
  | move x y =>
    by_cases hsc : s.isScratching = true
    · by_cases hrev : s.revealed = true
      · refine ⟨?_, ?_⟩ <;> simp [step, hsc, handleScratch, hrev, h1, h2]
      · rw [Bool.not_eq_true] at hrev
        refine ⟨?_, ?_⟩ <;> simp [step, hsc, handleScratch, hrev, h1 hrev, h2]
    · rw [Bool.not_eq_true] at hsc
      have hstep : step (ScratchEvent.move x y) s = s := by simp [step, hsc]
      rw [hstep]
      exact ⟨h1, h2⟩
  | release =>
    by_cases hrev : s.revealed = true
    · refine ⟨?_, ?_⟩ <;> simp [step, stopScratching, hrev, h1, h2]
    · rw [Bool.not_eq_true] at hrev
      by_cases hcov : 40 < calculateRevealPercentage s
      · refine ⟨?_, ?_⟩ <;> simp [step, stopScratching, hrev, hcov, h1 hrev]
      · refine ⟨?_, ?_⟩ <;> simp [step, stopScratching, hrev, hcov, h1, h2]

/-- Helper invariant, extended along a whole event trace. -/
theorem run_reveal_inv (evs : List ScratchEvent) (s : CardState w h)
    (h1 : s.revealed = false → s.revealCount = 0) (h2 : s.revealCount ≤ 1) :
    (run evs s).revealCount ≤ 1 := by
  induction evs generalizing s with
  | nil => exact h2
  | cons e rest ih =>
    have hstep := step_reveal_inv e s h1 h2
    exact ih (step e s) hstep.1 hstep.2

/-- Helper: a step never re-covers an uncovered pixel. -/
theorem step_uncovered_mono (e : ScratchEvent) (s : CardState w h) :
    s.uncovered ⊆ (step e s).uncovered := by
  cases e with
  | press => exact Finset.Subset.refl _
  | move x y =>
    by_cases hsc : s.isScratching = true
    · by_cases hrev : s.revealed = true
      · simp [step, hsc, handleScratch, hrev]
      · simp only [Bool.not_eq_true] at hrev
        simp [step, hsc, handleScratch, hrev]
    · simp only [Bool.not_eq_true] at hsc
      simp [step, hsc]
  | release =>
    by_cases hrev : s.revealed = true
    · simp [step, stopScratching, hrev]
    · simp only [Bool.not_eq_true] at hrev
      by_cases hcov : 40 < calculateRevealPercentage s
      · simp [step, stopScratching, hrev, hcov, Finset.subset_univ]
      · simp [step, stopScratching, hrev, hcov]

/-- C3: at gesture end the reveal fires exactly when the not-yet-
coverage of the not-yet-revealed card exceeds 40 (clearing the cover and invoking
`onReveal`), and does not fire at or below 40; once revealed, scratch
input is a no-op; along any event trace from the initial state the
reveal callback fires at most once; and no step ever re-covers an
uncovered pixel. -/
theorem reveal_fires_once_at_threshold (b : Bool) (evs : List ScratchEvent)
    (e : ScratchEvent) (x y : ℚ) (s₁ s₂ t u : CardState w h)
    (hs₁ : s₁.revealed = false) (hc₁ : calculateRevealPercentage s₁ ≤ 40)
    (hs₂ : s₂.revealed = false) (hc₂ : 40 < calculateRevealPercentage s₂)
    (ht : t.revealed = true) :
    ((stopScratching s₂).revealed = true ∧
      (stopScratching s₂).revealCount = s₂.revealCount + 1 ∧
      (stopScratching s₂).uncovered = Finset.univ) ∧
    stopScratching s₁ = { s₁ with isScratching := false } ∧
    handleScratch x y t = t ∧
    (run evs (initState w h b)).revealCount ≤ 1 ∧
    u.uncovered ⊆ (step e u).uncovered := by
  refine ⟨?_, ?_, ?_, ?_, step_uncovered_mono e u⟩
  · simp [stopScratching, hs₂, hc₂]
  · simp [stopScratching, hs₁, not_lt.mpr hc₁]
  · simp [handleScratch, ht]
  · exact run_reveal_inv evs (initState w h b) (fun _ => rfl) (by simp [initState])

/-- Witness for `reveal_fires_once_at_threshold` on a 1×1 canvas. -/
theorem reveal_fires_once_at_threshold_witness :
    (((stopScratching (CardState.mk false false Finset.univ 0 : CardState 1 1)).revealed = true ∧
      (stopScratching (CardState.mk false false Finset.univ 0 : CardState 1 1)).revealCount = 0 + 1 ∧
      (stopScratching (CardState.mk false false Finset.univ 0 : CardState 1 1)).uncovered = Finset.univ) ∧
    stopScratching (CardState.mk false false ∅ 0 : CardState 1 1)
      = { (CardState.mk false false ∅ 0 : CardState 1 1) with isScratching := false } ∧
    handleScratch 0 0 (CardState.mk false true Finset.univ 1 : CardState 1 1)
      = (CardState.mk false true Finset.univ 1 : CardState 1 1) ∧
    (run [ScratchEvent.press, ScratchEvent.move 0 0, ScratchEvent.release]
      (initState 1 1 false)).revealCount ≤ 1 ∧
    (CardState.mk false false ∅ 0 : CardState 1 1).uncovered
      ⊆ (step ScratchEvent.press (CardState.mk false false ∅ 0 : CardState 1 1)).uncovered) :=
  reveal_fires_once_at_threshold false
    [ScratchEvent.press, ScratchEvent.move 0 0, ScratchEvent.release]
    ScratchEvent.press 0 0
    (CardState.mk false false ∅ 0) (CardState.mk false false Finset.univ 0)
    (CardState.mk false true Finset.univ 1) (CardState.mk false false ∅ 0)
    rfl (by norm_num [calculateRevealPercentage])
    rfl (by norm_num [calculateRevealPercentage])
    rfl

/-- C8: on a nonempty canvas the measured coverage always lies in
[0, 100]: it is 0 on the untouched surface, 100 on the fully uncovered
surface, and a repeated scratch at the same point leaves the canvas
state — hence the coverage — unchanged (idempotence). -/
theorem coverage_bounds_and_idempotence (x y : ℚ) (s : CardState w h)
    (hwh : 0 < w * h) :
    0 ≤ calculateRevealPercentage s ∧ calculateRevealPercentage s ≤ 100 ∧
    calculateRevealPercentage (initState w h false) = 0 ∧
    calculateRevealPercentage
      { s with uncovered := (Finset.univ : Finset (Fin w × Fin h)) } = 100 ∧
    handleScratch x y (handleScratch x y s) = handleScratch x y s := by
  have hpos : (0 : ℚ) < ((w * h : ℕ) : ℚ) := by exact_mod_cast hwh
  have hcard : s.uncovered.card ≤ w * h := by
    simpa using Finset.card_le_univ s.uncovered
  have hcardle : (s.uncovered.card : ℚ) ≤ ((w * h : ℕ) : ℚ) := by exact_mod_cast hcard
  refine ⟨?_, ?_, ?_, ?_, ?_⟩
  · unfold calculateRevealPercentage
    positivity
  · have hdiv : (s.uncovered.card : ℚ) / ((w * h : ℕ) : ℚ) ≤ 1 :=
      (div_le_one hpos).mpr hcardle
    calc calculateRevealPercentage s
        = ((s.uncovered.card : ℚ) / ((w * h : ℕ) : ℚ)) * 100 := rfl
      _ ≤ 1 * 100 := by
          exact mul_le_mul_of_nonneg_right hdiv (by norm_num)
      _ = 100 := by norm_num
  · simp [calculateRevealPercentage, initState]
  · have hcu : ((Finset.univ : Finset (Fin w × Fin h)).card : ℚ) = ((w * h : ℕ) : ℚ) := by
      norm_cast
      simp [Finset.card_univ]
    simp only [calculateRevealPercentage, hcu]
    rw [div_self (ne_of_gt hpos)]
    norm_num
  · by_cases hrev : s.revealed = true
    · simp [handleScratch, hrev]
    · simp only [Bool.not_eq_true] at hrev
      simp [handleScratch, hrev, Finset.union_assoc]

/-- Witness for `coverage_bounds_and_idempotence` on a 1×1 canvas. -/
theorem coverage_bounds_and_idempotence_witness :
    (0 ≤ calculateRevealPercentage (CardState.mk false false ∅ 0 : CardState 1 1) ∧
    calculateRevealPercentage (CardState.mk false false ∅ 0 : CardState 1 1) ≤ 100 ∧
    calculateRevealPercentage (initState 1 1 false) = 0 ∧
    calculateRevealPercentage
      { (CardState.mk false false ∅ 0 : CardState 1 1) with
        uncovered := (Finset.univ : Finset (Fin 1 × Fin 1)) } = 100 ∧
    handleScratch 0 0 (handleScratch 0 0 (CardState.mk false false ∅ 0 : CardState 1 1))
      = handleScratch 0 0 (CardState.mk false false ∅ 0 : CardState 1 1)) :=
  coverage_bounds_and_idempotence 0 0 (CardState.mk false false ∅ 0) (by norm_num)

end ScratchCardModel
